import Mathlib

/-
Verification of the per-order carrier-resolution and sync-workflow engine of
the chembys-shop browser-automation repository.

The JavaScript sources are shallowly embedded as pure Lean functions:

  * pure text processing (extractPincode and the regexes it uses) is modelled
    directly on List Char;
  * browser/page effects (element lookups, waits, clicks, navigation) are
    modelled by explicit environment records whose fields state what each
    primitive would do (succeed, fail, which text it would read, ...), so
    every control-flow path of the source is a branch of a total function;
  * Date.now(), the Excel files, and environment variables are explicit
    arguments;
  * try/catch over an effectful primitive becomes a Bool success flag in the
    environment, and the catch handler's behaviour is the else branch.

Scanning loops over strings use an explicit fuel argument (fuel = input
length suffices, since every step consumes at least one character); this
keeps every definition structurally recursive and kernel-computable.
-/

namespace Chembys

/-- JS regex class \d : an ASCII digit. -/
def isDigitJS (c : Char) : Bool := c.isDigit

/-- JS regex class \s, restricted to the ASCII whitespace characters that can
occur in the inputs of this code base (space, tab, LF, VT, FF, CR). -/
def isSpaceJS (c : Char) : Bool :=
  c = ' ' || c = '\t' || c = '\n' || c = '\x0b' || c = '\x0c' || c = '\r'

/-- JS regex class \w : a word character, [A-Za-z0-9_]. -/
def isWordJS (c : Char) : Bool := c.isAlphanum || c = '_'

/-- Length of the longest prefix of l whose characters all satisfy p
(the amount a greedy, unbacktracked star over the class p consumes). -/
def countWhile (p : Char → Bool) : List Char → Nat
  | [] => 0
  | c :: t => if p c then countWhile p t + 1 else 0

/-- JS [...new Set(a)] : deduplicate, keeping the first occurrence order.
seen holds the values already emitted. -/
def dedupAux (seen : List String) : List String → List String
  | [] => []
  | x :: xs => if x ∈ seen then dedupAux seen xs else x :: dedupAux (x :: seen) xs

/-- JS [...new Set(a)] on an array of strings. -/
def dedupFirst (l : List String) : List String := dedupAux [] l

/-- JS String.prototype.trim (over the modelled whitespace class). -/
def trimJS (s : String) : String :=
  String.mk (((s.toList.dropWhile isSpaceJS).reverse.dropWhile isSpaceJS).reverse)

/-- JS String.prototype.toLowerCase, for the ASCII strings this program
compares (carrier names). -/
def toLowerJS (s : String) : String := String.mk (s.toList.map Char.toLower)

/-- The literal pincode label of the regex /Pincode\s*[:\-]?\s*(\d\x7b4,6\x7d)/gi,
matched case-insensitively: a JS /i ASCII literal accepts exactly the two
cases of each letter. True iff the list starts with such a 7-character label. -/
def labelMatches7 : List Char → Bool
  | p :: i :: n :: c :: o :: d :: e :: _ =>
    (p = 'p' || p = 'P') && (i = 'i' || i = 'I') && (n = 'n' || n = 'N') &&
    (c = 'c' || c = 'C') && (o = 'o' || o = 'O') && (d = 'd' || d = 'D') &&
    (e = 'e' || e = 'E')
  | _ => false

/-- The optional separator [:\-]? of the labelled regex: greedily consumes one
leading ':' or '-' if present. -/
def sepLen : List Char → Nat
  | [] => 0
  | c :: _ => if c = ':' || c = '-' then 1 else 0

/-- One match of /Pincode\s*[:\-]?\s*(\d\x7b4,6\x7d)/i : len is the length of the
whole match, cap the characters of the capture group. -/
structure LabelMatch where
  len : Nat
  cap : List Char
  deriving DecidableEq, Repr

/-- Attempt the labelled-pincode regex at the start of l. The character
classes \s, [:\-] and \d are pairwise disjoint on every character they can
meet here, so the regex engine's greedy backtracking is deterministic and
equals maximal munch, which is what this function computes: the label, a
maximal run of whitespace, at most one separator, a maximal run of
whitespace, then a greedy 4-to-6 digit capture (no right boundary). -/
def matchLabelledAt (l : List Char) : Option LabelMatch :=
  if labelMatches7 l then
    let r1 := l.drop 7
    let n1 := countWhile isSpaceJS r1
    let r2 := r1.drop n1
    let nSep := sepLen r2
    let r3 := r2.drop nSep
    let n2 := countWhile isSpaceJS r3
    let ds := (r3.drop n2).takeWhile isDigitJS
    if 4 ≤ ds.length then
      some ⟨7 + n1 + nSep + n2 + (ds.take 6).length, ds.take 6⟩
    else none
  else none

/-- Global scan of the labelled regex (the /g flag): collect the full match
substrings left to right, resuming after each match. fuel ≥ remaining length
suffices since every step consumes at least one character. -/
def scanLabelledAux : Nat → List Char → List (List Char)
  | 0, _ => []
  | _, [] => []
  | fuel + 1, c :: t =>
    match matchLabelledAt (c :: t) with
    | some m => (c :: t).take m.len :: scanLabelledAux fuel ((c :: t).drop m.len)
    | none => scanLabelledAux fuel t

/-- rawText.match(/Pincode\s*[:\-]?\s*(\d\x7b4,6\x7d)/gi) : the list of full match
substrings ([] plays the role of the null result). -/
def scanLabelled (l : List Char) : List (List Char) := scanLabelledAux l.length l

/-- m.match(/(\d\x7b4,6\x7d)/) applied to a full labelled match m: the group of the
leftmost match, i.e. the greedy 4-to-6 digit take at the first position with
at least 4 following digits. -/
def firstMatch46 : List Char → Option (List Char)
  | [] => none
  | c :: t =>
    let run := (c :: t).takeWhile isDigitJS
    if 4 ≤ run.length then some (run.take 6) else firstMatch46 t

/-- The \b test after k consumed characters of l: end of input or a non-word
character. -/
def boundaryAfter (l : List Char) (k : Nat) : Bool :=
  match l.drop k with
  | [] => true
  | c :: _ => !isWordJS c

/-- Greedy backtracking of \d\x7b4,6\x7d\b over a digit run: try the candidate
lengths from k down to 4, accepting the first with a word boundary after it. -/
def tryDigitLens (l : List Char) : Nat → Option (List Char)
  | 0 => none
  | k + 1 =>
    if 4 ≤ k + 1 then
      if boundaryAfter l (k + 1) then some (l.take (k + 1)) else tryDigitLens l k
    else none

/-- Attempt /\b\d\x7b4,6\x7d\b/ at the start of l, where prev is the character
immediately before l in the scanned text (none at the very start). -/
def matchAnyAt (prev : Option Char) (l : List Char) : Option (List Char) :=
  let leftOk := match prev with
    | none => true
    | some c => !isWordJS c
  if leftOk then tryDigitLens l (min (l.takeWhile isDigitJS).length 6) else none

/-- Global scan of /\b\d\x7b4,6\x7d\b/g, tracking the previous character for the
left word-boundary test. -/
def scanAny46Aux : Nat → Option Char → List Char → List (List Char)
  | 0, _, _ => []
  | _, _, [] => []
  | fuel + 1, prev, c :: t =>
    match matchAnyAt prev (c :: t) with
    | some m => m :: scanAny46Aux fuel m.getLast? ((c :: t).drop m.length)
    | none => scanAny46Aux fuel (some c) t

/-- rawText.match(/\b\d\x7b4,6\x7d\b/g) : all standalone 4-to-6 digit runs. -/
def scanAny46 (l : List Char) : List (List Char) := scanAny46Aux l.length none l

/-- extractPincode(rawText) of orderListPage.js / loginPage.js: labelled
matches first (each full match re-matched with /(\d\x7b4,6\x7d)/ to recover the
digits), falling back to standalone 4-to-6 digit runs only when the labelled
pass found nothing, then deduplicated keeping first-seen order. The JS guard
(!rawText || typeof rawText !== "string") is the emptiness test here, since
the modelled input is always a string. -/
def extractPincode (rawText : String) : List String :=
  if rawText = "" then []
  else
    let cs := rawText.toList
    let labelledCandidates :=
      (scanLabelled cs).filterMap fun m => (firstMatch46 m).map String.mk
    let candidates :=
      if labelledCandidates.length = 0 then (scanAny46 cs).map String.mk
      else labelledCandidates
    dedupFirst candidates

/-! Excel-backed carrier lookup cache (orderListPage.js / loginPage.js:
readPincodesFromExcel, _excelCache, loadExcelCaches). -/

/-- What the xlsx library would deliver for one Excel file: whether the xlsx
module loaded, whether the file exists, whether reading/parsing succeeds, and
the rows of the first sheet (none when the workbook has no sheets). -/
structure ExcelSource where
  xlsxAvailable : Bool
  fileExists : Bool
  readOk : Bool
  firstSheet : Option (List (List String))
  deriving Repr

/-- readPincodesFromExcel(absPath): first-column values of the first sheet,
stringified and trimmed, non-empty ones collected into a Set (here: a
deduplicated list in insertion order); every failure degrades to the empty
set. -/
def readPincodesFromExcel (src : ExcelSource) : List String :=
  if !src.xlsxAvailable then []
  else if !src.fileExists then []
  else if !src.readOk then []
  else
    match src.firstSheet with
    | none => []
    | some rows =>
      dedupFirst (rows.filterMap fun r =>
        match r.head? with
        | none => none
        | some v => let t := trimJS v; if t ≠ "" then some t else none)

/-- The process-wide _excelCache: two optional cached sets plus the timestamp
of the last load (0 = never loaded, matching the JS falsy check). -/
structure ExcelCache where
  DTDC : Option (List String)
  Delhivery : Option (List String)
  lastLoaded : Nat
  deriving Repr

/-- _excelCache.reloadInterval : 60 * 1000 milliseconds. -/
def reloadInterval : Nat := 60 * 1000

/-- loadExcelCaches(): return the cache unchanged (0 reads) when a load
happened less than reloadInterval ago and both sets are non-null; otherwise
re-read both files (2 reads) and stamp the current time. now is Date.now();
JS number subtraction on a clock that went backwards is negative and Nat
subtraction is 0, and both are < reloadInterval, so Nat is faithful. -/
def loadExcelCaches (c : ExcelCache) (now : Nat) (srcDTDC srcDelhivery : ExcelSource) :
    ExcelCache × Nat :=
  if c.lastLoaded ≠ 0 && now - c.lastLoaded < reloadInterval
      && c.DTDC.isSome && c.Delhivery.isSome then
    (c, 0)
  else
    ({ DTDC := some (readPincodesFromExcel srcDTDC)
     , Delhivery := some (readPincodesFromExcel srcDelhivery)
     , lastLoaded := now }, 2)

/-! Address popup handler (OrderListPage.handleAddressPopup, the variant with
the 150-character minimum-content threshold). -/

/-- JS truthiness of a nullable string: null and "" are falsy. -/
def jsTruthy : Option String → Bool
  | none => false
  | some s => s ≠ ""

/-- Browser-side outcomes for one handleAddressPopup call. -/
structure PopupEnv where
  /-- waitForSelector("#addressShowBody", visible, 1500) succeeds. -/
  appears : Bool
  /-- the subsequent page.$ returns a non-null handle. -/
  elFound : Bool
  /-- el.innerText() (before the .trim()). -/
  rawText : String
  /-- the preferred modal-footer close button is present. -/
  closeBtnFound : Bool
  /-- clicking that button does not throw. -/
  closeClickOk : Bool
  /-- pressing Escape does not throw. -/
  escapeOk : Bool
  deriving Repr

/-- The object handleAddressPopup returns; fields absent on a path are none. -/
structure HandleResult where
  foundAddress : Bool
  pincode : Option String
  pincodes : Option (List String)
  rawText : Option String
  textLength : Option Nat
  orderId : Option String
  deriving DecidableEq, Repr

/-- Effects performed by handleAddressPopup, for the claims about them. -/
structure HandleTrace where
  /-- the close-the-popup step was reached (preferred button or Escape). -/
  closeAttempted : Bool
  /-- extractPincode was invoked on the popup text. -/
  extractCalled : Bool
  deriving DecidableEq, Repr

/-- OrderListPage.handleAddressPopup(rowIndex, orderId): wait briefly for the
popup; on absence return the negative default. Otherwise trim the text; if it
is shorter than 150 characters, attempt to close and return with a null
pincode and no extraction; else extract pincodes, report the first, and
attempt to close. Close failures are swallowed on every path. -/
def handleAddressPopup (env : PopupEnv) (_rowIndex : Option Nat) (orderId : Option String) :
    HandleResult × HandleTrace :=
  if !env.appears then
    (⟨false, none, none, none, none, none⟩, ⟨false, false⟩)
  else if !env.elFound then
    (⟨false, none, none, none, none, none⟩, ⟨false, false⟩)
  else
    let rawText := trimJS env.rawText
    let hasAddressChar := rawText.toList.any fun c => c.isAlphanum
    let textLength := rawText.length
    if textLength < 150 then
      (⟨false, none, none, some rawText, some textLength, orderId⟩,
       ⟨true, false⟩)
    else
      let pincodes := extractPincode rawText
      let pincode := pincodes.head?
      (⟨hasAddressChar, pincode, some pincodes, some rawText, none, orderId⟩,
       ⟨true, true⟩)

/-! Sync workflow (the OrderListPage.syncShiprocketForOrder variant of
loginPage.js with the CARRIER_OVERRIDE environment control and GST step). -/

/-- Configuration read by syncShiprocketForOrder: the CARRIER_OVERRIDE
environment variable (empty string = unset) and the two cached lookup sets
(_excelCache.DTDC / _excelCache.Delhivery after loadExcelCaches, already
defaulted to the empty set as the source does with ||). -/
structure SyncConfig where
  carrierOverride : String
  dtdcSet : List String
  delhiverySet : List String
  deriving Repr

/-- Browser-side outcomes for one syncShiprocketForOrder call. Every field
models the success or result of one effectful primitive of the source. -/
structure SyncEnv where
  /-- newPage.goto(targetUrl) does not throw. -/
  navOk : Bool
  /-- e.message of the goto failure, when it throws. -/
  navErrorMsg : String
  /-- the #sync_shiprocket wait and click both succeed. -/
  syncButtonOk : Bool
  /-- the dropdown-wrapper wait and click both succeed. -/
  dropdownOk : Bool
  /-- trySelectByText("DTDC") would return true. -/
  selectDTDCOk : Bool
  /-- trySelectByText("Delhivery") would return true. -/
  selectDelhiveryOk : Bool
  /-- the modal innerText evaluate result (none = the evaluate threw). -/
  modalText : Option String
  /-- the last-option fallback: none = no option selector has items; some
  txtOpt = an item is clicked, with its innerText (none = reading threw). -/
  lastOption : Option (Option String)
  /-- the #chk_lst_yes radio is found. -/
  radioFound : Bool
  /-- the unguarded newPage.waitForTimeout(waitMs) settle wait does not throw. -/
  settleOk : Bool
  /-- e.message of the settle-wait failure, when it throws. -/
  settleErrorMsg : String
  deriving Repr

/-- The object syncShiprocketForOrder returns. -/
structure SyncResult where
  synced : Bool
  reason : Option String
  carrier : Option String
  deriving DecidableEq, Repr

/-- Effects performed by syncShiprocketForOrder, for the claims about them. -/
structure SyncTrace where
  /-- context.newPage() ran (the secondary tab exists). -/
  pageOpened : Bool
  /-- the finally block invoked newPage.close(). -/
  closeInvoked : Bool
  /-- the carrier name the pincode/override logic passed to trySelectByText
  (none if that logic never called it). -/
  selectionTarget : Option String
  deriving DecidableEq, Repr

/-- The pincode the modal-inspection fallback would recover: the first
extractPincode candidate of the modal innerText, when the evaluate succeeded
and the text is non-empty. -/
def modalPincode (env : SyncEnv) : Option String :=
  match env.modalText with
  | some mt => if mt ≠ "" then (extractPincode mt).head? else none
  | none => none

/-- Result of the dropdown-selection block: either the explicit
override-mismatch early return was taken, or control continues with what was
selected. -/
structure SelectionResult where
  isMismatch : Bool
  selected : Bool
  selectedCarrier : Option String
  target : Option String
  deriving DecidableEq, Repr

/-- /DTDC/i.test(txt)-style test: case-insensitive substring containment of an
ASCII needle. -/
def testCaseless (needle hay : String) : Bool :=
  let n := needle.toList.map Char.toLower
  let h := hay.toList.map Char.toLower
  (List.range (h.length + 1)).any fun i => (h.drop i).take n.length = n

/-- The dropdown-selection block of syncShiprocketForOrder (run only when the
dropdown appeared): honour a recognized CARRIER_OVERRIDE first — selecting
the forced carrier when the passed pincode is in its set and signalling the
override-mismatch early return otherwise; an unrecognized override skips the
pincode logic altogether. Without an override, try the passed pincode against
DTDC then Delhivery (first-checked wins), else inspect the modal text for a
pincode and resolve it the same way. If nothing was selected, click the last
available option and best-effort infer the carrier from its visible text. -/
def selectionPincodePhase (env : SyncEnv) (cfg : SyncConfig) (pc : Option String) :
    SelectionResult :=
  let co := trimJS cfg.carrierOverride
  if co ≠ "" then
    let norm := toLowerJS co
    if norm = "dtdc" then
      match pc with
      | some p =>
        if cfg.dtdcSet.contains p then
          ⟨false, env.selectDTDCOk, if env.selectDTDCOk then some "DTDC" else none,
           some "DTDC"⟩
        else ⟨true, false, none, none⟩
      | none => ⟨true, false, none, none⟩
    else if norm = "delhivery" then
      match pc with
      | some p =>
        if cfg.delhiverySet.contains p then
          ⟨false, env.selectDelhiveryOk,
           if env.selectDelhiveryOk then some "Delhivery" else none,
           some "Delhivery"⟩
        else ⟨true, false, none, none⟩
      | none => ⟨true, false, none, none⟩
    else ⟨false, false, none, none⟩
  else
    match pc with
    | some p =>
      if cfg.dtdcSet.contains p then
        ⟨false, env.selectDTDCOk, if env.selectDTDCOk then some "DTDC" else none,
         some "DTDC"⟩
      else if cfg.delhiverySet.contains p then
        ⟨false, env.selectDelhiveryOk,
         if env.selectDelhiveryOk then some "Delhivery" else none,
         some "Delhivery"⟩
      else
        match modalPincode env with
        | some q =>
          if cfg.dtdcSet.contains q then
            ⟨false, env.selectDTDCOk, if env.selectDTDCOk then some "DTDC" else none,
             some "DTDC"⟩
          else if cfg.delhiverySet.contains q then
            ⟨false, env.selectDelhiveryOk,
             if env.selectDelhiveryOk then some "Delhivery" else none,
             some "Delhivery"⟩
          else ⟨false, false, none, none⟩
        | none => ⟨false, false, none, none⟩
    | none =>
      match modalPincode env with
      | some q =>
        if cfg.dtdcSet.contains q then
          ⟨false, env.selectDTDCOk, if env.selectDTDCOk then some "DTDC" else none,
           some "DTDC"⟩
        else if cfg.delhiverySet.contains q then
          ⟨false, env.selectDelhiveryOk,
           if env.selectDelhiveryOk then some "Delhivery" else none,
           some "Delhivery"⟩
        else ⟨false, false, none, none⟩
      | none => ⟨false, false, none, none⟩

/-- The whole dropdown-selection block: the pincode/override phase above,
followed, when nothing was selected and the early return was not taken, by
the last-available-option fallback with its best-effort carrier inference
from the clicked item's text. -/
def selectionStep (env : SyncEnv) (cfg : SyncConfig) (pc : Option String) : SelectionResult :=
  let sel0 := selectionPincodePhase env cfg pc
  if sel0.isMismatch then sel0
  else if !sel0.selected then
    match env.lastOption with
    | none => sel0
    | some txtOpt =>
      let carrier := match txtOpt with
        | some txt =>
          if testCaseless "DTDC" txt then some "DTDC"
          else if testCaseless "Delhivery" txt then some "Delhivery"
          else sel0.selectedCarrier
        | none => sel0.selectedCarrier
      ⟨false, true, carrier, sel0.target⟩
  else sel0

/-- syncShiprocketForOrder(orderId, {waitMs, pincode}): open a new tab on the
order detail page and drive the sync dialog. An empty orderId returns
immediately (before the tab exists); a navigation failure or a missing
#sync_shiprocket trigger returns unsynced; the dropdown block may take the
override-mismatch early return; the radio, special-handling, GST and
CloseSyncPopup steps are each internally guarded and cannot affect the
result; the one unguarded await between them is the settle wait, whose
exception is caught by the outer catch. The finally block closes the tab on
every path that opened it. -/
def syncShiprocketForOrder (env : SyncEnv) (cfg : SyncConfig)
    (orderId : String) (pc : Option String) : SyncResult × SyncTrace :=
  if orderId = "" then
    (⟨false, some "no-order-id", none⟩, ⟨false, false, none⟩)
  else if !env.navOk then
    (⟨false, some env.navErrorMsg, none⟩, ⟨true, true, none⟩)
  else if !env.syncButtonOk then
    (⟨false, some "no-sync-button", none⟩, ⟨true, true, none⟩)
  else
    let sel := if env.dropdownOk then selectionStep env cfg pc
               else ⟨false, false, none, none⟩
    if sel.isMismatch then
      (⟨false, some "carrier-override-mismatch", none⟩, ⟨true, true, sel.target⟩)
    else if !env.settleOk then
      (⟨false, some env.settleErrorMsg, none⟩, ⟨true, true, sel.target⟩)
    else
      (⟨true, none, sel.selectedCarrier⟩, ⟨true, true, sel.target⟩)

/-- The condition under which the dropdown block takes the override-mismatch
early return, isolated for the unsynced-result characterization. -/
def overrideMismatch (cfg : SyncConfig) (pc : Option String) : Bool :=
  let co := trimJS cfg.carrierOverride
  let norm := toLowerJS co
  if co ≠ "" then
    if norm = "dtdc" then
      match pc with
      | some p => !cfg.dtdcSet.contains p
      | none => true
    else if norm = "delhivery" then
      match pc with
      | some p => !cfg.delhiverySet.contains p
      | none => true
    else false
  else false

/-! Batch runner (the clickEachRowAddressPopup variant of loginPage.js with
ORDERS_TO_PROCESS and the PROCESS_COUNT cap). -/

/-- The carrier re-resolution the batch runner performs when the sync flow
reported no carrier: DTDC membership first, then Delhivery (the same
first-checked-wins order as the selection logic). -/
def inferCarrierFromPincode (pincode : Option String) (dtdcSet delhiverySet : List String) :
    Option String :=
  match pincode with
  | none => none
  | some p =>
    if p ≠ "" && dtdcSet.contains p then some "DTDC"
    else if p ≠ "" && delhiverySet.contains p then some "Delhivery"
    else none

/-- Per-row browser-side inputs: what the order-id derivation chain, the
trigger lookup, the popup and the sync tab would each deliver for this row. -/
structure RowEnv where
  /-- the td.sorting_1 address button exists. -/
  addrBtnPresent : Bool
  /-- getAttribute results for the five candidate attributes, in order
  (none = null or a read error). -/
  addrBtnAttrs : List (Option String)
  /-- the button innerText (none = the read threw). -/
  addrBtnText : Option String
  /-- the row data-order-id attribute. -/
  rowDataOrderId : Option String
  /-- innerText of a td.order-id / th.order-id cell, when such a cell exists
  and the read succeeds. -/
  orderCellText : Option String
  /-- innerText of the first td, when it exists and the read succeeds. -/
  firstTdText : Option String
  /-- the primary rowButtonSelector button exists. -/
  primaryBtn : Bool
  /-- the fallback address-show-btn exists. -/
  fallbackBtn : Bool
  /-- the trigger click does not throw (a throw is caught at the row
  boundary and the loop continues). -/
  clickOk : Bool
  popup : PopupEnv
  sync : SyncEnv
  deriving Repr

/-- The first attribute value that is JS-truthy (the loop breaks on it). -/
def firstNonEmptyAttr : List (Option String) → Option String
  | [] => none
  | some v :: rest => if v ≠ "" then some v else firstNonEmptyAttr rest
  | none :: rest => firstNonEmptyAttr rest

/-- The order-id derivation chain of the batch loop: button attributes, then
button text, then the row attribute, then an order-id cell, then the first
td; each later source is consulted only while the variable is still falsy.
Note the attribute loop assigns the trimmed value and breaks on a truthy raw
value, so a whitespace-only attribute leaves the variable at "" (falsy). -/
def deriveOrderId (r : RowEnv) : Option String :=
  let o0 : Option String :=
    if r.addrBtnPresent then (firstNonEmptyAttr r.addrBtnAttrs).map trimJS else none
  let o1 : Option String :=
    if jsTruthy o0 then o0
    else if r.addrBtnPresent then
      match r.addrBtnText with
      | some t => if trimJS t ≠ "" then some (trimJS t) else o0
      | none => o0
    else o0
  let o2 := if jsTruthy o1 then o1 else
    match r.rowDataOrderId with
    | some v => if v ≠ "" then some (trimJS v) else o1
    | none => o1
  let o3 := if jsTruthy o2 then o2 else
    match r.orderCellText with
    | some t => some (trimJS t)
    | none => o2
  if jsTruthy o3 then o3 else
    match r.firstTdText with
    | some t => some (trimJS t)
    | none => o3

/-- Batch configuration: the ORDERS_TO_PROCESS inclusion set (empty = process
all), the positive PROCESS_COUNT cap when set, and the sync configuration
(shared lookup sets and override). -/
structure BatchConfig where
  ordersToProcess : List String
  maxToProcess : Option Nat
  syncCfg : SyncConfig
  deriving Repr

/-- One { orderId, pincode } entry of a processed.<carrier> array. -/
structure ProcessedRecord where
  orderId : String
  pincode : String
  deriving DecidableEq, Repr

/-- The mutable state of the batch loop, plus a trace of which row indices
the loop body was entered for. -/
structure BatchState where
  processedRowCount : Nat
  dtdcList : List ProcessedRecord
  delhiveryList : List ProcessedRecord
  unknownList : List ProcessedRecord
  evaluatedRows : List Nat
  deriving DecidableEq, Repr

/-- The ORDERS_TO_PROCESS inclusion filter: with a non-empty set, only rows
with a truthy id whose trimmed value is listed pass. -/
def passesInclusionFilter (cfg : BatchConfig) (orderId : Option String) : Bool :=
  if cfg.ordersToProcess.length > 0 then
    match orderId with
    | some oid => oid ≠ "" && cfg.ordersToProcess.contains (trimJS oid)
    | none => false
  else true

/-- The sync-and-classify step of the loop body: when a pincode and a truthy
order id were both obtained, run the sync flow, prefer its carrier, fall back
to the pincode-based re-resolution when it reported none, and append the
record to the matching processed list. -/
def recordOutcome (cfg : BatchConfig) (r : RowEnv) (oid? pincode? : Option String)
    (st : BatchState) : BatchState :=
  if jsTruthy pincode? && jsTruthy oid? then
    let oid := oid?.getD ""
    let p := pincode?.getD ""
    let result := (syncShiprocketForOrder r.sync cfg.syncCfg oid (some p)).1
    let carrier := match result.carrier with
      | some c => some c
      | none => inferCarrierFromPincode (some p) cfg.syncCfg.dtdcSet cfg.syncCfg.delhiverySet
    if carrier = some "DTDC" then
      { st with dtdcList := st.dtdcList ++ [⟨oid, p⟩] }
    else if carrier = some "Delhivery" then
      { st with delhiveryList := st.delhiveryList ++ [⟨oid, p⟩] }
    else
      { st with unknownList := st.unknownList ++ [⟨oid, p⟩] }
  else st

/-- One iteration of the batch loop body for row index i (0-based): derive the
order id, apply the inclusion filter, find and click the trigger (a click
throw is caught at the row boundary, skipping the counter), delegate to
handleAddressPopup, sync-and-classify, then increment the processed counter. -/
def processRow (cfg : BatchConfig) (i : Nat) (r : RowEnv) (st : BatchState) : BatchState :=
  let st0 := { st with evaluatedRows := st.evaluatedRows ++ [i] }
  let oid? := deriveOrderId r
  if !passesInclusionFilter cfg oid? then st0
  else if !(r.primaryBtn || r.fallbackBtn) then st0
  else if !r.clickOk then st0
  else
    let hres := (handleAddressPopup r.popup (some (i + 1)) oid?).1
    let st1 := recordOutcome cfg r oid? hres.pincode st0
    { st1 with processedRowCount := st1.processedRowCount + 1 }

/-- True when the PROCESS_COUNT cap is configured and already reached. -/
def capReached (cfg : BatchConfig) (st : BatchState) : Bool :=
  match cfg.maxToProcess with
  | some m => st.processedRowCount ≥ m
  | none => false

/-- The row loop of clickEachRowAddressPopup: check the cap at the top of
each iteration, run the body, and also break right after the body when the
cap was just reached. -/
def runRows (cfg : BatchConfig) : List RowEnv → Nat → BatchState → BatchState
  | [], _, st => st
  | r :: rest, i, st =>
    if capReached cfg st then st
    else
      let st1 := processRow cfg i r st
      if capReached cfg st1 then st1
      else runRows cfg rest (i + 1) st1

/-- clickEachRowAddressPopup: process the discovered rows sequentially from
an empty accumulator (the post-loop summary printing and file write do not
change the accumulator and are not modelled). -/
def clickEachRowAddressPopup (cfg : BatchConfig) (rows : List RowEnv) : BatchState :=
  runRows cfg rows 0 ⟨0, [], [], [], []⟩

/-! Concrete fixtures for the closed evaluation theorems below. -/

/-- A popup whose text is shorter than 150 characters yet contains a valid
labelled pincode. -/
def popupEnvShort : PopupEnv := ⟨true, true, "Pincode: 689672", true, true, true⟩

/-- A realistic address text of more than 150 characters containing the
labelled pincode 689672. -/
def longAddressText : String :=
  String.join
    [ "Customer: Test Person, Flat 12B, Sunrise Apartments, Mahatma Gandhi Road, "
    , "Near Government Hospital, Pathanamthitta District, Kerala State, India, "
    , "Pincode: 689672, Landmark: opposite the vegetable market" ]

/-- A popup delivering the long address text. -/
def popupEnvLong : PopupEnv := ⟨true, true, longAddressText, true, true, true⟩

/-- A browser environment in which every primitive succeeds. -/
def syncEnvAllOk : SyncEnv :=
  { navOk := true, navErrorMsg := "navigation failed", syncButtonOk := true
  , dropdownOk := true, selectDTDCOk := true, selectDelhiveryOk := true
  , modalText := some "", lastOption := some (some "Delhivery (Surface)")
  , radioFound := true, settleOk := true, settleErrorMsg := "settle failed" }

/-- CARRIER_OVERRIDE=Delhivery while 689672 is covered by DTDC only. -/
def cfgOverrideDelhivery : SyncConfig := ⟨"Delhivery", ["689672"], []⟩

/-- No override; 689672 present in both lookup sets. -/
def cfgNoOverride : SyncConfig := ⟨"", ["689672"], ["689672"]⟩

/-- An Excel source whose read fails entirely. -/
def srcUnavailable : ExcelSource := ⟨false, false, false, none⟩

/-- The pristine module-level cache. -/
def emptyCache : ExcelCache := ⟨none, none, 0⟩

/-- A fully eligible row whose order id derives from the button attribute
and whose popup is the long address above. -/
def rowEnvC9 : RowEnv :=
  { addrBtnPresent := true, addrBtnAttrs := [some "1599"], addrBtnText := none
  , rowDataOrderId := none, orderCellText := none, firstTdText := none
  , primaryBtn := true, fallbackBtn := false, clickOk := true
  , popup := popupEnvLong, sync := syncEnvAllOk }

/-- A fully eligible row with a short (skipped) popup. -/
def rowEnvEligible : RowEnv :=
  { addrBtnPresent := true, addrBtnAttrs := [some "101"], addrBtnText := none
  , rowDataOrderId := none, orderCellText := none, firstTdText := none
  , primaryBtn := true, fallbackBtn := false, clickOk := true
  , popup := popupEnvShort, sync := syncEnvAllOk }

/-- PROCESS_COUNT=1, no inclusion filter. -/
def batchCfgCap1 : BatchConfig := ⟨[], some 1, cfgNoOverride⟩

/-- No cap, no inclusion filter, Delhivery override configured. -/
def batchCfgC9 : BatchConfig := ⟨[], none, cfgOverrideDelhivery⟩

/-! Theorems. -/

/-- C5: when the address popup appears and its trimmed text is shorter than
150 characters, handleAddressPopup returns a null pincode, never invokes
extractPincode, and still attempts to close the popup before returning. -/
theorem c5_short_popup_skips_extraction (env : PopupEnv) (ri : Option Nat)
    (oid : Option String) (h1 : env.appears = true) (h2 : env.elFound = true)
    (h3 : (trimJS env.rawText).length < 150) :
    (handleAddressPopup env ri oid).1.pincode = none ∧
    (handleAddressPopup env ri oid).2.extractCalled = false ∧
    (handleAddressPopup env ri oid).2.closeAttempted = true := by
  simp only [handleAddressPopup, h1, h2, h3, Bool.not_true, Bool.false_eq_true,
    if_false, if_true]
  simp [h3]

/-- C5 witness: a popup whose short text embeds the valid pincode pattern
689672 still comes back with a null pincode and no extraction attempt. -/
theorem c5_short_popup_skips_extraction_witness :
    (handleAddressPopup popupEnvShort (some 1) (some "1599")).1.pincode = none ∧
    (handleAddressPopup popupEnvShort (some 1) (some "1599")).2.extractCalled = false ∧
    (handleAddressPopup popupEnvShort (some 1) (some "1599")).2.closeAttempted = true :=
  c5_short_popup_skips_extraction popupEnvShort (some 1) (some "1599")
    (by decide) (by decide) (by decide)

/-- C6: after a loadExcelCaches call at a positive clock both cached lookup
sets are non-null (empty sets on read failure, never absence), and a second
call less than the reload interval after the recorded load returns the cache
unchanged with zero external reads. -/
theorem loadExcelCaches_state (c : ExcelCache) (now : Nat) (s1 s2 : ExcelSource)
    (h : 0 < now) :
    (loadExcelCaches c now s1 s2).1.DTDC.isSome = true ∧
    (loadExcelCaches c now s1 s2).1.Delhivery.isSome = true ∧
    (loadExcelCaches c now s1 s2).1.lastLoaded ≠ 0 := by
  unfold loadExcelCaches
  split
  next hc =>
    simp only [Bool.and_eq_true, decide_eq_true_eq] at hc
    exact ⟨hc.1.2, hc.2, hc.1.1.1⟩
  next => exact ⟨rfl, rfl, by simpa using Nat.pos_iff_ne_zero.mp h⟩

theorem loadExcelCaches_fresh (c : ExcelCache) (now : Nat) (s1 s2 : ExcelSource)
    (h0 : c.lastLoaded ≠ 0) (h1 : now - c.lastLoaded < reloadInterval)
    (h2 : c.DTDC.isSome = true) (h3 : c.Delhivery.isSome = true) :
    loadExcelCaches c now s1 s2 = (c, 0) := by
  unfold loadExcelCaches
  rw [if_pos]
  simp [h0, h1, h2, h3]

theorem c6_cache_loaded_once (c0 : ExcelCache) (now1 now2 : Nat)
    (s1 s2 s3 s4 : ExcelSource) (h1 : 0 < now1)
    (h2 : now2 - (loadExcelCaches c0 now1 s1 s2).1.lastLoaded < reloadInterval) :
    ((loadExcelCaches c0 now1 s1 s2).1.DTDC ≠ none ∧
     (loadExcelCaches c0 now1 s1 s2).1.Delhivery ≠ none) ∧
    loadExcelCaches (loadExcelCaches c0 now1 s1 s2).1 now2 s3 s4 =
      ((loadExcelCaches c0 now1 s1 s2).1, 0) := by
  obtain ⟨hd, he, hl⟩ := loadExcelCaches_state c0 now1 s1 s2 h1
  refine ⟨⟨by simpa [Option.isSome_iff_ne_none] using hd,
           by simpa [Option.isSome_iff_ne_none] using he⟩, ?_⟩
  exact loadExcelCaches_fresh _ now2 s3 s4 hl h2 hd he

/-- C6 witness: first load on the pristine cache with unavailable files, then
a second call 100 ms later. -/
theorem c6_cache_loaded_once_witness :
    ((loadExcelCaches emptyCache 5 srcUnavailable srcUnavailable).1.DTDC ≠ none ∧
     (loadExcelCaches emptyCache 5 srcUnavailable srcUnavailable).1.Delhivery ≠ none) ∧
    loadExcelCaches (loadExcelCaches emptyCache 5 srcUnavailable srcUnavailable).1 100
        srcUnavailable srcUnavailable =
      ((loadExcelCaches emptyCache 5 srcUnavailable srcUnavailable).1, 0) :=
  c6_cache_loaded_once emptyCache 5 100 srcUnavailable srcUnavailable
    srcUnavailable srcUnavailable (by decide) (by decide)

/-- C7: every syncShiprocketForOrder call with a truthy order id (and hence a
secondary tab) invokes newPage.close() before returning, on every exit path:
success, the early returns, and the caught exceptions. -/
theorem c7_tab_always_closed (env : SyncEnv) (cfg : SyncConfig) (orderId : String)
    (pc : Option String) (h : orderId ≠ "") :
    (syncShiprocketForOrder env cfg orderId pc).2.pageOpened = true ∧
    (syncShiprocketForOrder env cfg orderId pc).2.closeInvoked = true := by
  unfold syncShiprocketForOrder
  split_ifs <;>
    first
      | exact absurd (by assumption) h
      | exact ⟨rfl, rfl⟩
      | exact ⟨by dsimp only; split <;> rfl, by dsimp only; split <;> rfl⟩

/-- C7 witness: a concrete call that opened the tab and closed it. -/
theorem c7_tab_always_closed_witness :
    (syncShiprocketForOrder syncEnvAllOk cfgNoOverride "1599" (some "689672")).2.pageOpened = true ∧
    (syncShiprocketForOrder syncEnvAllOk cfgNoOverride "1599" (some "689672")).2.closeInvoked = true :=
  c7_tab_always_closed syncEnvAllOk cfgNoOverride "1599" (some "689672") (by decide)

/-- The pincode/override phase takes the mismatch early return exactly under
the overrideMismatch condition. -/
theorem selectionPhase_isMismatch (env : SyncEnv) (cfg : SyncConfig) (pc : Option String) :
    (selectionPincodePhase env cfg pc).isMismatch = overrideMismatch cfg pc := by
  rcases pc with _ | p <;>
    · unfold selectionPincodePhase overrideMismatch
      dsimp only
      split_ifs <;>
        first
          | rfl
          | (simp_all; done)
          | (cases modalPincode env with
              | none => rfl
              | some q => dsimp only; split_ifs <;> rfl)

/-- The last-option fallback never changes whether the mismatch early return
was taken. -/
theorem selectionStep_isMismatch (env : SyncEnv) (cfg : SyncConfig) (pc : Option String) :
    (selectionStep env cfg pc).isMismatch = (selectionPincodePhase env cfg pc).isMismatch := by
  unfold selectionStep
  dsimp only
  split_ifs with h1 h2
  · rfl
  · cases env.lastOption with
    | none => rfl
    | some txtOpt =>
      simp only [Bool.not_eq_true] at h1
      exact h1.symm
  · rfl

/-- The last-option fallback never changes the carrier name the pincode or
override logic targeted. -/
theorem selectionStep_target (env : SyncEnv) (cfg : SyncConfig) (pc : Option String) :
    (selectionStep env cfg pc).target = (selectionPincodePhase env cfg pc).target := by
  unfold selectionStep
  dsimp only
  split_ifs
  · rfl
  · cases env.lastOption with
    | none => rfl
    | some txtOpt => rfl
  · rfl

/-- C1: in an invocation that reaches the carrier-selection control, a
recognized carrier override whose lookup set does not contain the supplied
pincode makes the call return the distinct override-mismatch outcome —
synced=false with reason "carrier-override-mismatch" and a null carrier, not
Unknown and not a forced assignment. -/
theorem c1_override_mismatch_distinct (env : SyncEnv) (cfg : SyncConfig)
    (orderId p : String) (h0 : orderId ≠ "")
    (h1 : env.navOk = true) (h2 : env.syncButtonOk = true) (h3 : env.dropdownOk = true)
    (h4 : (toLowerJS (trimJS cfg.carrierOverride) = "delhivery" ∧
           cfg.delhiverySet.contains p = false) ∨
          (toLowerJS (trimJS cfg.carrierOverride) = "dtdc" ∧
           cfg.dtdcSet.contains p = false)) :
    (syncShiprocketForOrder env cfg orderId (some p)).1 =
      ⟨false, some "carrier-override-mismatch", none⟩ := by
  have hco : trimJS cfg.carrierOverride ≠ "" := by
    rcases h4 with ⟨h, _⟩ | ⟨h, _⟩ <;> intro he <;> rw [he] at h <;> exact absurd h (by decide)
  have hphase : selectionPincodePhase env cfg (some p) = ⟨true, false, none, none⟩ := by
    unfold selectionPincodePhase
    dsimp only
    rcases h4 with ⟨h, hmem⟩ | ⟨h, hmem⟩ <;> (simp [hco, h]; simpa using hmem)
  have hsel : selectionStep env cfg (some p) = ⟨true, false, none, none⟩ := by
    unfold selectionStep
    rw [hphase]
    rfl
  unfold syncShiprocketForOrder
  simp [h0, h1, h2, h3, hsel]

/-- C1 witness: CARRIER_OVERRIDE=Delhivery with pincode 689672 covered only
by DTDC yields the override-mismatch outcome. -/
theorem c1_override_mismatch_distinct_witness :
    (syncShiprocketForOrder syncEnvAllOk cfgOverrideDelhivery "1599" (some "689672")).1 =
      ⟨false, some "carrier-override-mismatch", none⟩ :=
  c1_override_mismatch_distinct syncEnvAllOk cfgOverrideDelhivery "1599" "689672"
    (by decide) (by decide) (by decide) (by decide) (Or.inl (by decide))

/-- C2 counterexample: an invocation with successful navigation and a present
sync trigger still returns synced=false, via the carrier-override mismatch,
so navigation failure and the missing trigger are not the only unsynced
conditions. -/
theorem c2_counterexample_override_mismatch_unsynced :
    (syncShiprocketForOrder syncEnvAllOk cfgOverrideDelhivery "1599"
        (some "689672")).1.synced = false ∧
    syncEnvAllOk.navOk = true ∧ syncEnvAllOk.syncButtonOk = true ∧
    ("1599" : String) ≠ "" := by
  exact ⟨by decide, by decide, by decide, by decide⟩

/-- C2 (amended): every failure of the guarded sub-steps is caught and the
workflow continues; an invocation returns synced=false exactly when the order
id is empty, the initial navigation fails, the sync trigger is absent, the
carrier-selection control appeared and the override-mismatch skip applies, or
the one unguarded settle wait throws. -/
theorem c2_unsynced_characterization (env : SyncEnv) (cfg : SyncConfig)
    (orderId : String) (pc : Option String) :
    (syncShiprocketForOrder env cfg orderId pc).1.synced = false ↔
      (orderId = "" ∨ env.navOk = false ∨ env.syncButtonOk = false ∨
       (env.dropdownOk = true ∧ overrideMismatch cfg pc = true) ∨
       env.settleOk = false) := by
  have hmm : (selectionStep env cfg pc).isMismatch = overrideMismatch cfg pc := by
    rw [selectionStep_isMismatch, selectionPhase_isMismatch]
  unfold syncShiprocketForOrder
  by_cases h0 : orderId = "" <;>
    by_cases h1 : env.navOk <;>
      by_cases h2 : env.syncButtonOk <;>
        by_cases h3 : env.dropdownOk <;>
          by_cases h4 : overrideMismatch cfg pc = true <;>
            by_cases h5 : env.settleOk <;>
              simp [h0, h1, h2, h3, h4, h5, hmm]

/-- With no override, a supplied pincode in the DTDC set makes the selection
logic target DTDC, regardless of Delhivery membership. -/
theorem selectionPhase_target_dtdc (env : SyncEnv) (cfg : SyncConfig) (p : String)
    (hov : trimJS cfg.carrierOverride = "") (hd : cfg.dtdcSet.contains p = true) :
    (selectionPincodePhase env cfg (some p)).target = some "DTDC" := by
  have hd' : p ∈ cfg.dtdcSet := by simpa using hd
  unfold selectionPincodePhase
  cases hE : env.selectDTDCOk <;> simp [hov, hd', hE]

/-- With no override, the selection logic targets Delhivery exactly when the
first-checked DTDC membership test fails for the driving pincode: the
supplied pincode is in Delhivery's set only, or it is in neither set and the
modal-recovered pincode is in Delhivery's set only. -/
theorem selectionPhase_target_delhivery_iff (env : SyncEnv) (cfg : SyncConfig) (p : String)
    (hov : trimJS cfg.carrierOverride = "") :
    (selectionPincodePhase env cfg (some p)).target = some "Delhivery" ↔
      (cfg.dtdcSet.contains p = false ∧ cfg.delhiverySet.contains p = true) ∨
      (cfg.dtdcSet.contains p = false ∧ cfg.delhiverySet.contains p = false ∧
       ∃ q, modalPincode env = some q ∧ cfg.dtdcSet.contains q = false ∧
         cfg.delhiverySet.contains q = true) := by
  unfold selectionPincodePhase
  by_cases hd : cfg.dtdcSet.contains p = true
  · have hd' : p ∈ cfg.dtdcSet := by simpa using hd
    cases hE : env.selectDTDCOk <;> simp [hov, hd', hE, hd]
  · have hd' : p ∉ cfg.dtdcSet := by simpa using hd
    by_cases hl : cfg.delhiverySet.contains p = true
    · have hl' : p ∈ cfg.delhiverySet := by simpa using hl
      cases hE : env.selectDelhiveryOk <;> simp [hov, hd', hl', hE, hd, hl]
    · have hl' : p ∉ cfg.delhiverySet := by simpa using hl
      rcases hm : modalPincode env with _ | q
      · simp [hov, hd', hl', hm, hd, hl]
      · by_cases hqd : cfg.dtdcSet.contains q = true
        · have hqd' : q ∈ cfg.dtdcSet := by simpa using hqd
          cases hE : env.selectDTDCOk <;> simp [hov, hd', hl', hm, hd, hl, hqd', hqd, hE]
        · have hqd' : q ∉ cfg.dtdcSet := by simpa using hqd
          by_cases hql : cfg.delhiverySet.contains q = true
          · have hql' : q ∈ cfg.delhiverySet := by simpa using hql
            cases hE : env.selectDelhiveryOk <;>
              simp [hov, hd', hl', hm, hd, hl, hqd', hqd, hql', hql, hE]
          · have hql' : q ∉ cfg.delhiverySet := by simpa using hql
            simp [hov, hd', hl', hm, hd, hl, hqd', hqd, hql', hql]

/-- The batch re-resolution returns DTDC for a non-empty pincode in the DTDC
set, regardless of Delhivery membership, and Delhivery exactly when the DTDC
test fails and the pincode is in Delhivery's set. -/
theorem inferCarrierFromPincode_characterization (p : String) (dtdc del : List String)
    (hne : p ≠ "") :
    (dtdc.contains p = true → inferCarrierFromPincode (some p) dtdc del = some "DTDC") ∧
    (inferCarrierFromPincode (some p) dtdc del = some "Delhivery" ↔
      dtdc.contains p = false ∧ del.contains p = true) := by
  unfold inferCarrierFromPincode
  by_cases hd : p ∈ dtdc <;> by_cases hl : p ∈ del <;> simp [hne, hd, hl]

/-- C4: with no override, a pincode in DTDC's lookup set is resolved to DTDC
even when it is also in Delhivery's set (first-checked wins), and Delhivery
is targeted only when the DTDC membership test fails for the driving pincode
and that pincode is in Delhivery's set — both in the sync workflow's
selection logic and in the batch runner's independent re-resolution. -/
theorem c4_dtdc_first_tie_break (env : SyncEnv) (cfg : SyncConfig) (p : String)
    (hov : trimJS cfg.carrierOverride = "") (hne : p ≠ "") :
    (cfg.dtdcSet.contains p = true →
      (selectionStep env cfg (some p)).target = some "DTDC" ∧
      inferCarrierFromPincode (some p) cfg.dtdcSet cfg.delhiverySet = some "DTDC") ∧
    ((selectionStep env cfg (some p)).target = some "Delhivery" ↔
      (cfg.dtdcSet.contains p = false ∧ cfg.delhiverySet.contains p = true) ∨
      (cfg.dtdcSet.contains p = false ∧ cfg.delhiverySet.contains p = false ∧
       ∃ q, modalPincode env = some q ∧ cfg.dtdcSet.contains q = false ∧
         cfg.delhiverySet.contains q = true)) ∧
    (inferCarrierFromPincode (some p) cfg.dtdcSet cfg.delhiverySet = some "Delhivery" ↔
      cfg.dtdcSet.contains p = false ∧ cfg.delhiverySet.contains p = true) := by
  obtain ⟨hi1, hi2⟩ :=
    inferCarrierFromPincode_characterization p cfg.dtdcSet cfg.delhiverySet hne
  refine ⟨fun hd => ⟨?_, hi1 hd⟩, ?_, hi2⟩
  · rw [selectionStep_target]
    exact selectionPhase_target_dtdc env cfg p hov hd
  · rw [selectionStep_target]
    exact selectionPhase_target_delhivery_iff env cfg p hov

/-- C4 witness: pincode 689672 present in both lookup sets, no override. -/
theorem c4_dtdc_first_tie_break_witness :
    (cfgNoOverride.dtdcSet.contains "689672" = true →
      (selectionStep syncEnvAllOk cfgNoOverride (some "689672")).target = some "DTDC" ∧
      inferCarrierFromPincode (some "689672") cfgNoOverride.dtdcSet
        cfgNoOverride.delhiverySet = some "DTDC") ∧
    ((selectionStep syncEnvAllOk cfgNoOverride (some "689672")).target = some "Delhivery" ↔
      (cfgNoOverride.dtdcSet.contains "689672" = false ∧
       cfgNoOverride.delhiverySet.contains "689672" = true) ∨
      (cfgNoOverride.dtdcSet.contains "689672" = false ∧
       cfgNoOverride.delhiverySet.contains "689672" = false ∧
       ∃ q, modalPincode syncEnvAllOk = some q ∧
         cfgNoOverride.dtdcSet.contains q = false ∧
         cfgNoOverride.delhiverySet.contains q = true)) ∧
    (inferCarrierFromPincode (some "689672") cfgNoOverride.dtdcSet
        cfgNoOverride.delhiverySet = some "Delhivery" ↔
      cfgNoOverride.dtdcSet.contains "689672" = false ∧
      cfgNoOverride.delhiverySet.contains "689672" = true) :=
  c4_dtdc_first_tie_break syncEnvAllOk cfgNoOverride "689672" (by decide) (by decide)

/-- The sync-and-classify step never changes the processed counter or the
evaluated-row trace. -/
theorem recordOutcome_preserves_count (cfg : BatchConfig) (r : RowEnv)
    (oid? pincode? : Option String) (st : BatchState) :
    (recordOutcome cfg r oid? pincode? st).processedRowCount = st.processedRowCount ∧
    (recordOutcome cfg r oid? pincode? st).evaluatedRows = st.evaluatedRows := by
  unfold recordOutcome
  split_ifs <;>
    first
      | exact ⟨rfl, rfl⟩
      | (dsimp only; split_ifs <;> exact ⟨rfl, rfl⟩)

/-- An eligible row (passing filter, clickable trigger, successful click)
increments the processed counter by exactly one and records its index in the
evaluation trace. -/
theorem processRow_eligible (cfg : BatchConfig) (i : Nat) (r : RowEnv) (st : BatchState)
    (hf : passesInclusionFilter cfg (deriveOrderId r) = true)
    (hb : (r.primaryBtn || r.fallbackBtn) = true) (hc : r.clickOk = true) :
    (processRow cfg i r st).processedRowCount = st.processedRowCount + 1 ∧
    (processRow cfg i r st).evaluatedRows = st.evaluatedRows ++ [i] := by
  unfold processRow
  obtain ⟨h1, h2⟩ := recordOutcome_preserves_count cfg r (deriveOrderId r)
    (handleAddressPopup r.popup (some (i + 1)) (deriveOrderId r)).1.pincode
    { st with evaluatedRows := st.evaluatedRows ++ [i] }
  simp [hf, hb, hc, h1, h2]

/-- C8: with PROCESS_COUNT=1 and three eligible rows, only the first row is
processed and the loop breaks before evaluating the second row. -/
theorem c8_process_count_one_stops_after_first_row (cfg : BatchConfig)
    (r1 r2 r3 : RowEnv) (hcap : cfg.maxToProcess = some 1)
    (hf1 : passesInclusionFilter cfg (deriveOrderId r1) = true)
    (hb1 : (r1.primaryBtn || r1.fallbackBtn) = true) (hc1 : r1.clickOk = true)
    (hf2 : passesInclusionFilter cfg (deriveOrderId r2) = true)
    (hb2 : (r2.primaryBtn || r2.fallbackBtn) = true) (hc2 : r2.clickOk = true)
    (hf3 : passesInclusionFilter cfg (deriveOrderId r3) = true)
    (hb3 : (r3.primaryBtn || r3.fallbackBtn) = true) (hc3 : r3.clickOk = true) :
    (clickEachRowAddressPopup cfg [r1, r2, r3]).evaluatedRows = [0] ∧
    (clickEachRowAddressPopup cfg [r1, r2, r3]).processedRowCount = 1 := by
  obtain ⟨hcnt, hev⟩ := processRow_eligible cfg 0 r1 ⟨0, [], [], [], []⟩ hf1 hb1 hc1
  have h1 : capReached cfg ⟨0, [], [], [], []⟩ = false := by
    simp [capReached, hcap]
  have h2 : capReached cfg (processRow cfg 0 r1 ⟨0, [], [], [], []⟩) = true := by
    simp [capReached, hcap, hcnt]
  unfold clickEachRowAddressPopup runRows
  simp [h1, h2, hcnt, hev]

/-- C8 witness: three concrete eligible rows under a cap of one. -/
theorem c8_process_count_one_stops_after_first_row_witness :
    (clickEachRowAddressPopup batchCfgCap1
        [rowEnvEligible, rowEnvEligible, rowEnvEligible]).evaluatedRows = [0] ∧
    (clickEachRowAddressPopup batchCfgCap1
        [rowEnvEligible, rowEnvEligible, rowEnvEligible]).processedRowCount = 1 :=
  c8_process_count_one_stops_after_first_row batchCfgCap1
    rowEnvEligible rowEnvEligible rowEnvEligible rfl
    (by decide) (by decide) (by decide) (by decide) (by decide) (by decide)
    (by decide) (by decide) (by decide)

/-- C9: a row whose sync call reports a null carrier — including the
override-mismatch skip — is still re-resolved from its pincode and appended
to the DTDC (or Delhivery) summary list when the pincode belongs to that
set; the record carries only the order id and pincode, indistinguishable
from a successfully synced one. -/
theorem c9_null_carrier_rows_still_classified (cfg : BatchConfig) (i : Nat) (r : RowEnv)
    (st : BatchState) (oid p : String)
    (hoid : deriveOrderId r = some oid) (hoidne : oid ≠ "")
    (hf : passesInclusionFilter cfg (deriveOrderId r) = true)
    (hb : (r.primaryBtn || r.fallbackBtn) = true) (hc : r.clickOk = true)
    (hpin : (handleAddressPopup r.popup (some (i + 1)) (deriveOrderId r)).1.pincode = some p)
    (hpne : p ≠ "")
    (hnull : (syncShiprocketForOrder r.sync cfg.syncCfg oid (some p)).1.carrier = none) :
    (cfg.syncCfg.dtdcSet.contains p = true →
      (processRow cfg i r st).dtdcList = st.dtdcList ++ [⟨oid, p⟩]) ∧
    (cfg.syncCfg.dtdcSet.contains p = false → cfg.syncCfg.delhiverySet.contains p = true →
      (processRow cfg i r st).delhiveryList = st.delhiveryList ++ [⟨oid, p⟩]) := by
  have hpin' : (handleAddressPopup r.popup (some (i + 1)) (some oid)).1.pincode = some p := by
    rw [← hoid]; exact hpin
  have hf' : passesInclusionFilter cfg (some oid) = true := by
    rw [← hoid]; exact hf
  constructor
  · intro hd
    have hd' : p ∈ cfg.syncCfg.dtdcSet := by simpa using hd
    unfold processRow
    simp only [hoid, hf, hb, hc, Bool.not_true, Bool.false_eq_true, if_false]
    unfold recordOutcome
    simp [hpin', hf', jsTruthy, hpne, hoidne, hnull, inferCarrierFromPincode, hd']
  · intro hd hl
    have hd' : p ∉ cfg.syncCfg.dtdcSet := by simpa using hd
    have hl' : p ∈ cfg.syncCfg.delhiverySet := by simpa using hl
    unfold processRow
    simp only [hoid, hf, hb, hc, Bool.not_true, Bool.false_eq_true, if_false]
    unfold recordOutcome
    simp [hpin', hf', jsTruthy, hpne, hoidne, hnull, inferCarrierFromPincode, hd', hl']

set_option maxRecDepth 8192 in
/-- C9 witness: order 1599 is skipped by the Delhivery override mismatch
(its pincode 689672 is only in DTDC's set), yet ends up in the DTDC summary
list. -/
theorem c9_null_carrier_rows_still_classified_witness :
    (batchCfgC9.syncCfg.dtdcSet.contains "689672" = true →
      (processRow batchCfgC9 0 rowEnvC9 ⟨0, [], [], [], []⟩).dtdcList =
        ([] : List ProcessedRecord) ++ [⟨"1599", "689672"⟩]) ∧
    (batchCfgC9.syncCfg.dtdcSet.contains "689672" = false →
      batchCfgC9.syncCfg.delhiverySet.contains "689672" = true →
      (processRow batchCfgC9 0 rowEnvC9 ⟨0, [], [], [], []⟩).delhiveryList =
        ([] : List ProcessedRecord) ++ [⟨"1599", "689672"⟩]) :=
  c9_null_carrier_rows_still_classified batchCfgC9 0 rowEnvC9 ⟨0, [], [], [], []⟩
    "1599" "689672" (by decide) (by decide) (by decide) (by decide) (by decide)
    (by decide) (by decide) (by decide)

/-! Character-class and scanning lemmas for the extractPincode regexes. -/

theorem isSpaceJS_of_eq_space {c : Char} (h : isSpaceJS c = true) :
    c = ' ' ∨ c = '\t' ∨ c = '\n' ∨ c = '\x0b' ∨ c = '\x0c' ∨ c = '\r' := by
  simp only [isSpaceJS, Bool.or_eq_true, decide_eq_true_eq] at h
  tauto

theorem not_digit_of_space {c : Char} (h : isSpaceJS c = true) : isDigitJS c = false := by
  rcases isSpaceJS_of_eq_space h with h | h | h | h | h | h <;> subst h <;> decide

theorem not_space_of_digit {c : Char} (h : isDigitJS c = true) : isSpaceJS c = false := by
  cases hs : isSpaceJS c
  · rfl
  · rw [not_digit_of_space hs] at h
    cases h

theorem sep_false_of_digit {c : Char} (h : isDigitJS c = true) :
    (c = ':' || c = '-') = false := by
  by_cases h1 : c = ':'
  · subst h1; exact absurd h (by decide)
  · by_cases h2 : c = '-'
    · subst h2; exact absurd h (by decide)
    · simp [h1, h2]

theorem not_digit_of_sep {c : Char} (h : c = ':' ∨ c = '-') : isDigitJS c = false := by
  rcases h with h | h <;> subst h <;> decide

theorem space_ne_P {c : Char} (h : isSpaceJS c = true) : c ≠ 'P' := by
  intro he; subst he; exact absurd h (by decide)

theorem digit_ne_P {c : Char} (h : isDigitJS c = true) : c ≠ 'P' := by
  intro he; subst he; exact absurd h (by decide)

theorem countWhile_append_of_all {p : Char → Bool} {a : List Char} (b : List Char)
    (h : ∀ c ∈ a, p c = true) :
    countWhile p (a ++ b) = a.length + countWhile p b := by
  induction a with
  | nil => simp [countWhile]
  | cons x xs ih =>
    have hx : p x = true := h x (by simp)
    have ih' := ih fun c hc => h c (by simp [hc])
    simp [countWhile, hx, ih']
    omega

theorem countWhile_cons_false {p : Char → Bool} {c : Char} (t : List Char)
    (h : p c = false) : countWhile p (c :: t) = 0 := by
  simp [countWhile, h]

theorem mem_take_countWhile {p : Char → Bool} {l : List Char} :
    ∀ c ∈ l.take (countWhile p l), p c = true := by
  induction l with
  | nil => simp
  | cons x xs ih =>
    intro c hc
    by_cases hx : p x = true
    · simp only [countWhile, hx, if_true, List.take_succ_cons, List.mem_cons] at hc
      rcases hc with rfl | hc
      · exact hx
      · exact ih c hc
    · rw [countWhile_cons_false xs (by simpa using hx)] at hc
      simp at hc

theorem takeWhile_append_of_all {p : Char → Bool} {a : List Char} (b : List Char)
    (h : ∀ c ∈ a, p c = true) :
    (a ++ b).takeWhile p = a ++ b.takeWhile p := by
  induction a with
  | nil => simp
  | cons x xs ih =>
    have hx : p x = true := h x (by simp)
    have ih' := ih fun c hc => h c (by simp [hc])
    simp [List.takeWhile, hx, ih']

theorem mem_dedupAux {x : String} : ∀ (seen l : List String),
    x ∈ dedupAux seen l ↔ x ∈ l ∧ x ∉ seen := by
  intro seen l
  induction l generalizing seen with
  | nil => simp [dedupAux]
  | cons y ys ih =>
    by_cases hy : y ∈ seen
    · simp only [dedupAux, hy, if_true, ih, List.mem_cons]
      constructor
      · rintro ⟨h1, h2⟩; exact ⟨Or.inr h1, h2⟩
      · rintro ⟨h1 | h1, h2⟩
        · exact absurd (h1 ▸ hy) h2
        · exact ⟨h1, h2⟩
    · simp only [dedupAux, hy, if_false, List.mem_cons, ih]
      by_cases hxy : x = y
      · subst hxy; simp [hy]
      · simp [hxy]

theorem mem_dedupFirst {x : String} {l : List String} : x ∈ dedupFirst l ↔ x ∈ l := by
  simp [dedupFirst, mem_dedupAux]

theorem takeWhile_all {p : Char → Bool} {l : List Char} (h : ∀ c ∈ l, p c = true) :
    l.takeWhile p = l := by
  induction l with
  | nil => rfl
  | cons a t ih =>
    have ha : p a = true := h a (by simp)
    have ih' := ih fun c hc => h c (by simp [hc])
    simp [List.takeWhile_cons, ha, ih']

theorem take_of_takeWhile_le {p : Char → Bool} {r : List Char} {k : Nat}
    (hk : k ≤ (r.takeWhile p).length) : ∀ x ∈ r.take k, p x = true := by
  induction r generalizing k with
  | nil => simp
  | cons a t ih =>
    cases k with
    | zero => simp
    | succ k' =>
      intro x hx
      by_cases ha : p a = true
      · simp only [List.takeWhile_cons, ha, if_true, List.length_cons] at hk
        simp only [List.take_succ_cons, List.mem_cons] at hx
        rcases hx with rfl | hx
        · exact ha
        · exact ih (by omega) x hx
      · rw [List.takeWhile_cons, if_neg (by simpa using ha)] at hk
        simp at hk
  
theorem mem_take_sepLen {r : List Char} : ∀ c ∈ r.take (sepLen r), c = ':' ∨ c = '-' := by
  cases r with
  | nil => simp [sepLen]
  | cons a t =>
    by_cases ha : (a = ':' || a = '-') = true
    · intro c hc
      rw [show sepLen (a :: t) = 1 from by simp [sepLen, ha]] at hc
      simp only [List.take_succ_cons, List.take_zero, List.mem_singleton] at hc
      subst hc
      simpa using ha
    · intro c hc
      rw [show sepLen (a :: t) = 0 from by simp [sepLen]; simpa using ha] at hc
      simp at hc

theorem firstMatch46_append (A cap : List Char)
    (hA : ∀ c ∈ A, isDigitJS c = false)
    (hcap : ∀ c ∈ cap, isDigitJS c = true)
    (h4 : 4 ≤ cap.length) (h6 : cap.length ≤ 6) :
    firstMatch46 (A ++ cap) = some cap := by
  induction A with
  | nil =>
    rw [List.nil_append]
    obtain ⟨c, t, rfl⟩ : ∃ c t, cap = c :: t := by
      cases cap with
      | nil => simp at h4
      | cons c t => exact ⟨c, t, rfl⟩
    rw [show firstMatch46 (c :: t) =
        (let run := (c :: t).takeWhile isDigitJS
         if 4 ≤ run.length then some (run.take 6) else firstMatch46 t) from rfl]
    simp only [takeWhile_all hcap]
    rw [if_pos h4]
    rw [List.take_of_length_le h6]
  | cons a A' ih =>
    have ha : isDigitJS a = false := hA a (by simp)
    have ih' := ih fun c hc => hA c (by simp [hc])
    rw [List.cons_append]
    rw [show firstMatch46 (a :: (A' ++ cap)) =
        (let run := (a :: (A' ++ cap)).takeWhile isDigitJS
         if 4 ≤ run.length then some (run.take 6) else firstMatch46 (A' ++ cap)) from rfl]
    simp only [List.takeWhile_cons, ha, if_false, Bool.false_eq_true, List.length_nil]
    rw [if_neg (by omega)]
    exact ih'


theorem take_min_self (l : List Char) (n : Nat) : l.take (min n l.length) = l.take n := by
  rcases Nat.le_total n l.length with h | h
  · rw [Nat.min_eq_left h]
  · rw [Nat.min_eq_right h, List.take_length, List.take_of_length_le h]

theorem matchLabelledAt_region {l : List Char} {m : LabelMatch}
    (h : matchLabelledAt l = some m) :
    ∃ lab mid,
      l.take m.len = lab ++ (mid ++ m.cap) ∧
      lab.length = 7 ∧
      (∀ c ∈ lab, isDigitJS c = false) ∧
      (∀ c ∈ lab.drop 1, c ≠ 'P') ∧
      (∀ c ∈ mid, isDigitJS c = false ∧ c ≠ 'P') ∧
      (∀ c ∈ m.cap, isDigitJS c = true) ∧
      4 ≤ m.cap.length ∧ m.cap.length ≤ 6 := by
  unfold matchLabelledAt at h
  split at h
  case isFalse => simp at h
  case isTrue hlab =>
    obtain ⟨c0, c1, c2, c3, c4, c5, c6, rest, rfl⟩ :
        ∃ c0 c1 c2 c3 c4 c5 c6 rest,
          l = c0 :: c1 :: c2 :: c3 :: c4 :: c5 :: c6 :: rest := by
      rcases l with _ | ⟨c0, _ | ⟨c1, _ | ⟨c2, _ | ⟨c3, _ | ⟨c4, _ | ⟨c5, _ | ⟨c6, rest⟩⟩⟩⟩⟩⟩⟩ <;>
        first
          | exact Bool.noConfusion hlab
          | exact ⟨_, _, _, _, _, _, _, _, rfl⟩
    simp only [labelMatches7, Bool.and_eq_true, Bool.or_eq_true, decide_eq_true_eq] at hlab
    obtain ⟨⟨⟨⟨⟨⟨h0, h1⟩, h2⟩, h3⟩, h4c⟩, h5⟩, h6⟩ := hlab
    rw [show (c0 :: c1 :: c2 :: c3 :: c4 :: c5 :: c6 :: rest).drop 7 = rest from rfl] at h
    dsimp only at h
    split at h
    case isFalse => simp at h
    case isTrue hds4 =>
      rw [Option.some.injEq] at h
      subst h
      set n1 := countWhile isSpaceJS rest with hn1
      set r2 := rest.drop n1 with hr2
      set nSep := sepLen r2 with hnSep
      set r3 := r2.drop nSep with hr3
      set n2 := countWhile isSpaceJS r3 with hn2
      set r4 := r3.drop n2 with hr4
      set ds := r4.takeWhile isDigitJS with hds
      refine ⟨[c0, c1, c2, c3, c4, c5, c6],
        rest.take n1 ++ (r2.take nSep ++ r3.take n2), ?_, rfl, ?_, ?_, ?_, ?_, ?_, ?_⟩
      · have harith : 7 + n1 + nSep + n2 + (ds.take 6).length =
            7 + (n1 + (nSep + (n2 + (ds.take 6).length))) := by omega
        rw [harith, List.take_add]
        rw [show (c0 :: c1 :: c2 :: c3 :: c4 :: c5 :: c6 :: rest).take 7 =
            [c0, c1, c2, c3, c4, c5, c6] from rfl]
        rw [show (c0 :: c1 :: c2 :: c3 :: c4 :: c5 :: c6 :: rest).drop 7 = rest from rfl]
        rw [List.take_add, ← hr2, List.take_add, ← hr3, List.take_add, ← hr4]
        have hsplit : ds ++ r4.dropWhile isDigitJS = r4 := by
          rw [hds]; exact List.takeWhile_append_dropWhile isDigitJS r4
        have hr4take : r4.take (ds.take 6).length = ds.take 6 := by
          conv_lhs => rw [← hsplit]
          rw [List.take_append_eq_append_take]
          have hle : (ds.take 6).length ≤ ds.length := by
            rw [List.length_take]; omega
          rw [show (ds.take 6).length - ds.length = 0 from by omega]
          rw [List.take_zero, List.append_nil, List.length_take, take_min_self]
        rw [hr4take]
        simp [List.append_assoc]
      · intro c hc
        simp only [List.mem_cons, List.not_mem_nil, or_false] at hc
        rcases hc with rfl | rfl | rfl | rfl | rfl | rfl | rfl
        · rcases h0 with rfl | rfl <;> decide
        · rcases h1 with rfl | rfl <;> decide
        · rcases h2 with rfl | rfl <;> decide
        · rcases h3 with rfl | rfl <;> decide
        · rcases h4c with rfl | rfl <;> decide
        · rcases h5 with rfl | rfl <;> decide
        · rcases h6 with rfl | rfl <;> decide
      · intro c hc
        rw [show List.drop 1 [c0, c1, c2, c3, c4, c5, c6] =
            [c1, c2, c3, c4, c5, c6] from rfl] at hc
        simp only [List.mem_cons, List.not_mem_nil, or_false] at hc
        rcases hc with rfl | rfl | rfl | rfl | rfl | rfl
        · rcases h1 with rfl | rfl <;> decide
        · rcases h2 with rfl | rfl <;> decide
        · rcases h3 with rfl | rfl <;> decide
        · rcases h4c with rfl | rfl <;> decide
        · rcases h5 with rfl | rfl <;> decide
        · rcases h6 with rfl | rfl <;> decide
      · intro c hc
        rcases List.mem_append.mp hc with h1' | h1'
        · rw [hn1] at h1'
          have hs := mem_take_countWhile c h1'
          exact ⟨not_digit_of_space hs, space_ne_P hs⟩
        · rcases List.mem_append.mp h1' with h2' | h2'
          · rw [hnSep] at h2'
            have hs := mem_take_sepLen c h2'
            refine ⟨not_digit_of_sep hs, ?_⟩
            rcases hs with rfl | rfl <;> decide
          · rw [hn2] at h2'
            have hs := mem_take_countWhile c h2'
            exact ⟨not_digit_of_space hs, space_ne_P hs⟩
      · intro c hc
        have hc' := List.mem_of_mem_take hc
        rw [hds] at hc'
        exact List.mem_takeWhile_imp hc'
      · rw [List.length_take]
        omega
      · rw [List.length_take]
        omega

theorem matchLabelledAt_occurrence (s1 sep s2 ds v : List Char)
    (hs1 : ∀ c ∈ s1, isSpaceJS c = true)
    (hsep : sep = [] ∨ sep = [':'] ∨ sep = ['-'])
    (hs2 : ∀ c ∈ s2, isSpaceJS c = true)
    (hds : ∀ c ∈ ds, isDigitJS c = true)
    (hlen : 4 ≤ ds.length) :
    matchLabelledAt ('P' :: 'i' :: 'n' :: 'c' :: 'o' :: 'd' :: 'e' ::
        (s1 ++ (sep ++ (s2 ++ (ds ++ v))))) =
      some ⟨7 + s1.length + sep.length + s2.length +
              ((ds ++ v.takeWhile isDigitJS).take 6).length,
            (ds ++ v.takeWhile isDigitJS).take 6⟩ := by
  obtain ⟨d, ds', rfl⟩ : ∃ d ds', ds = d :: ds' := by
    cases ds with
    | nil => simp at hlen
    | cons d ds' => exact ⟨d, ds', rfl⟩
  have hd : isDigitJS d = true := hds d (by simp)
  have hdrop7 : ∀ T : List Char,
      ('P' :: 'i' :: 'n' :: 'c' :: 'o' :: 'd' :: 'e' :: T).drop 7 = T := fun _ => rfl
  have hdrop1 : ∀ (c : Char) (X : List Char), (c :: X).drop 1 = X := fun _ _ => rfl
  have htw : List.takeWhile isDigitJS (d :: (ds' ++ v)) =
      d :: (ds' ++ List.takeWhile isDigitJS v) := by
    rw [← List.cons_append, ← List.cons_append]
    exact takeWhile_append_of_all v hds
  have hrun : 4 ≤ (d :: (ds' ++ List.takeWhile isDigitJS v)).length := by
    have h1 := hlen
    simp only [List.length_cons, List.length_append] at h1 ⊢
    omega
  have hcw2 : countWhile isSpaceJS (d :: (ds' ++ v)) = 0 :=
    countWhile_cons_false _ (not_space_of_digit hd)
  have hsepd : sepLen (d :: (ds' ++ v)) = 0 := by
    simp [sepLen, sep_false_of_digit hd]
  rcases hsep with rfl | hsep'
  · have hcw1 : countWhile isSpaceJS (s1 ++ (s2 ++ (d :: (ds' ++ v)))) =
        s1.length + (s2.length + 0) := by
      rw [countWhile_append_of_all _ hs1, countWhile_append_of_all _ hs2, hcw2]
    have hdropN : ∀ X : List Char,
        (s1 ++ (s2 ++ X)).drop (s1.length + (s2.length + 0)) = X := by
      intro X
      rw [Nat.add_zero, ← List.append_assoc, ← List.length_append]
      exact List.drop_left _ _
    unfold matchLabelledAt
    rw [show labelMatches7 ('P' :: 'i' :: 'n' :: 'c' :: 'o' :: 'd' :: 'e' ::
        (s1 ++ ([] ++ (s2 ++ ((d :: ds') ++ v))))) = true from rfl]
    simp only [if_true, List.nil_append, List.cons_append, hdrop7, hcw1, hdropN,
      hsepd, List.drop_zero, hcw2, htw]
    rw [if_pos hrun]
    simp only [Option.some.injEq, LabelMatch.mk.injEq, List.length_nil, and_true]
    omega
  · obtain ⟨cS, hcS, rfl⟩ : ∃ c, (c = ':' ∨ c = '-') ∧ sep = [c] := by
      rcases hsep' with rfl | rfl
      · exact ⟨':', Or.inl rfl, rfl⟩
      · exact ⟨'-', Or.inr rfl, rfl⟩
    have hcSns : isSpaceJS cS = false := by
      rcases hcS with rfl | rfl <;> decide
    have hcSsep : (cS = ':' || cS = '-') = true := by
      rcases hcS with rfl | rfl <;> decide
    have hcw1 : countWhile isSpaceJS (s1 ++ (cS :: (s2 ++ (d :: (ds' ++ v))))) =
        s1.length + 0 := by
      rw [countWhile_append_of_all _ hs1, countWhile_cons_false _ hcSns]
    have hdropN : ∀ X : List Char,
        (s1 ++ (cS :: X)).drop (s1.length + 0) = cS :: X := by
      intro X
      rw [Nat.add_zero]
      exact List.drop_left _ _
    have hsepc : sepLen (cS :: (s2 ++ (d :: (ds' ++ v)))) = 1 := by
      simp [sepLen, hcSsep]
    have hcw3 : countWhile isSpaceJS (s2 ++ (d :: (ds' ++ v))) = s2.length + 0 := by
      rw [countWhile_append_of_all _ hs2, hcw2]
    have hdropM : ∀ X : List Char, (s2 ++ X).drop (s2.length + 0) = X := by
      intro X
      rw [Nat.add_zero]
      exact List.drop_left _ _
    unfold matchLabelledAt
    rw [show labelMatches7 ('P' :: 'i' :: 'n' :: 'c' :: 'o' :: 'd' :: 'e' ::
        (s1 ++ ([cS] ++ (s2 ++ ((d :: ds') ++ v))))) = true from rfl]
    simp only [if_true, List.singleton_append, List.nil_append, List.cons_append, hdrop7, hcw1, hdropN,
      hsepc, hdrop1, hcw3, hdropM, hsepd, List.drop_zero, hcw2, htw]
    rw [if_pos hrun]
    simp only [Option.some.injEq, LabelMatch.mk.injEq, List.length_singleton, and_true]
    omega

theorem matchLabelledAt_no_P {l : List Char} {m : LabelMatch}
    (h : matchLabelledAt l = some m) : ∀ c ∈ (l.take m.len).drop 1, c ≠ 'P' := by
  obtain ⟨lab, mid, heq, hlab7, _, hlabP, hmid, hcap, _, _⟩ := matchLabelledAt_region h
  intro c hc
  rw [heq] at hc
  obtain ⟨a, lab', rfl⟩ : ∃ a lab', lab = a :: lab' := by
    cases lab with
    | nil => simp at hlab7
    | cons a lab' => exact ⟨a, lab', rfl⟩
  rw [List.cons_append, show ((a :: (lab' ++ (mid ++ m.cap))).drop 1) =
      lab' ++ (mid ++ m.cap) from rfl] at hc
  rcases List.mem_append.mp hc with h1 | h1
  · exact hlabP c h1
  · rcases List.mem_append.mp h1 with h2 | h2
    · exact (hmid c h2).2
    · exact digit_ne_P (hcap c h2)

theorem matchLabelledAt_firstMatch {l : List Char} {m : LabelMatch}
    (h : matchLabelledAt l = some m) : firstMatch46 (l.take m.len) = some m.cap := by
  obtain ⟨lab, mid, heq, _, hlabD, _, hmid, hcap, h4, h6⟩ := matchLabelledAt_region h
  rw [heq, show lab ++ (mid ++ m.cap) = (lab ++ mid) ++ m.cap from
    (List.append_assoc _ _ _).symm]
  refine firstMatch46_append (lab ++ mid) m.cap ?_ hcap h4 h6
  intro c hc
  rcases List.mem_append.mp hc with h1 | h1
  · exact hlabD c h1
  · exact (hmid c h1).1

theorem matchLabelledAt_len_pos {l : List Char} {m : LabelMatch}
    (h : matchLabelledAt l = some m) : 0 < m.len := by
  obtain ⟨lab, mid, heq, hlab7, _, _, _, _, _, _⟩ := matchLabelledAt_region h
  have hlen := congrArg List.length heq
  rw [List.length_take, List.length_append, hlab7] at hlen
  have := Nat.min_le_left m.len l.length
  omega

theorem mem_filterMap_scan_cons {f : List Char → Option (List Char)}
    {y x : List Char} {xs : List (List Char)} (h : y ∈ xs.filterMap f) :
    y ∈ (x :: xs).filterMap f := by
  rw [List.filterMap_cons]
  cases f x with
  | none => exact h
  | some z => exact List.mem_cons_of_mem z h

theorem scanLabelledAux_adequate (fuel : Nat) :
    ∀ (u T : List Char) (M0 : LabelMatch),
      matchLabelledAt ('P' :: T) = some M0 →
      (u ++ 'P' :: T).length ≤ fuel →
      M0.cap ∈ (scanLabelledAux fuel (u ++ 'P' :: T)).filterMap firstMatch46 := by
  induction fuel with
  | zero =>
    intro u T M0 _ hfuel
    simp [List.length_append] at hfuel
  | succ fuel ih =>
    intro u T M0 hM0 hfuel
    cases u with
    | nil =>
      rw [List.nil_append] at hfuel ⊢
      rw [show scanLabelledAux (fuel + 1) ('P' :: T) =
        (match matchLabelledAt ('P' :: T) with
         | some m => ('P' :: T).take m.len :: scanLabelledAux fuel (('P' :: T).drop m.len)
         | none => scanLabelledAux fuel T) from rfl]
      rw [hM0]
      rw [List.filterMap_cons, matchLabelledAt_firstMatch hM0]
      exact List.mem_cons_self _ _
    | cons a u' =>
      rw [List.cons_append] at hfuel ⊢
      rcases hmatch : matchLabelledAt (a :: (u' ++ 'P' :: T)) with _ | M
      · rw [show scanLabelledAux (fuel + 1) (a :: (u' ++ 'P' :: T)) =
          (match matchLabelledAt (a :: (u' ++ 'P' :: T)) with
           | some m => (a :: (u' ++ 'P' :: T)).take m.len ::
              scanLabelledAux fuel ((a :: (u' ++ 'P' :: T)).drop m.len)
           | none => scanLabelledAux fuel (u' ++ 'P' :: T)) from rfl]
        rw [hmatch]
        refine ih u' T M0 hM0 ?_
        simp only [List.length_cons] at hfuel
        omega
      · rw [show scanLabelledAux (fuel + 1) (a :: (u' ++ 'P' :: T)) =
          (match matchLabelledAt (a :: (u' ++ 'P' :: T)) with
           | some m => (a :: (u' ++ 'P' :: T)).take m.len ::
              scanLabelledAux fuel ((a :: (u' ++ 'P' :: T)).drop m.len)
           | none => scanLabelledAux fuel (u' ++ 'P' :: T)) from rfl]
        rw [hmatch]
        by_cases hcase : M.len ≤ (a :: u').length
        · apply mem_filterMap_scan_cons
          have hdrop : (a :: (u' ++ 'P' :: T)).drop M.len =
              ((a :: u').drop M.len) ++ 'P' :: T := by
            rw [show a :: (u' ++ 'P' :: T) = (a :: u') ++ 'P' :: T from rfl]
            rw [List.drop_append_eq_append_drop, Nat.sub_eq_zero_of_le hcase,
              List.drop_zero]
          rw [hdrop]
          refine ih ((a :: u').drop M.len) T M0 hM0 ?_
          have hpos := matchLabelledAt_len_pos hmatch
          simp only [List.length_append, List.length_cons, List.length_drop] at hfuel ⊢
          omega
        · exfalso
          have hP : 'P' ∈ ((a :: (u' ++ 'P' :: T)).take M.len).drop 1 := by
            rw [show a :: (u' ++ 'P' :: T) = (a :: u') ++ 'P' :: T from rfl]
            rw [List.take_append_eq_append_take]
            rw [List.take_of_length_le (by omega : (a :: u').length ≤ M.len)]
            obtain ⟨k, hk⟩ : ∃ k, M.len - (a :: u').length = k + 1 :=
              ⟨M.len - (a :: u').length - 1, by omega⟩
            rw [hk, List.take_succ_cons]
            rw [show (a :: u') ++ 'P' :: T.take k = a :: (u' ++ 'P' :: T.take k) from rfl]
            rw [show (a :: (u' ++ 'P' :: T.take k)).drop 1 = u' ++ 'P' :: T.take k from rfl]
            exact List.mem_append_right _ (List.mem_cons_self _ _)
          exact matchLabelledAt_no_P hmatch 'P' hP rfl

theorem labelled_occurrence_mem_extractPincode (u s1 sep s2 ds v : List Char)
    (hs1 : ∀ c ∈ s1, isSpaceJS c = true)
    (hsep : sep = [] ∨ sep = [':'] ∨ sep = ['-'])
    (hs2 : ∀ c ∈ s2, isSpaceJS c = true)
    (hds : ∀ c ∈ ds, isDigitJS c = true)
    (hlen : 4 ≤ ds.length) :
    String.mk ((ds ++ v.takeWhile isDigitJS).take 6) ∈
      extractPincode (String.mk (u ++ 'P' :: 'i' :: 'n' :: 'c' :: 'o' :: 'd' :: 'e' ::
        (s1 ++ (sep ++ (s2 ++ (ds ++ v)))))) := by
  set T := 'i' :: 'n' :: 'c' :: 'o' :: 'd' :: 'e' :: (s1 ++ (sep ++ (s2 ++ (ds ++ v)))) with hT
  have hM : matchLabelledAt ('P' :: T) =
      some ⟨7 + s1.length + sep.length + s2.length +
              ((ds ++ v.takeWhile isDigitJS).take 6).length,
            (ds ++ v.takeWhile isDigitJS).take 6⟩ := by
    rw [hT]
    exact matchLabelledAt_occurrence s1 sep s2 ds v hs1 hsep hs2 hds hlen
  have hscan := scanLabelledAux_adequate ((u ++ 'P' :: T).length) u T _ hM (le_refl _)
  have hne : String.mk (u ++ 'P' :: T) ≠ "" := by
    intro hcon
    have hdata : u ++ 'P' :: T = [] := congrArg String.data hcon
    simp at hdata
  unfold extractPincode
  rw [if_neg hne]
  dsimp only [String.toList]
  have hmem : String.mk ((ds ++ v.takeWhile isDigitJS).take 6) ∈
      (scanLabelled (u ++ 'P' :: T)).filterMap
        (fun m => (firstMatch46 m).map String.mk) := by
    obtain ⟨a, ha, hfa⟩ := List.mem_filterMap.mp hscan
    exact List.mem_filterMap.mpr ⟨a, ha, by rw [hfa]; rfl⟩
  have hnz : ¬ ((scanLabelled (u ++ 'P' :: T)).filterMap
      (fun m => (firstMatch46 m).map String.mk)).length = 0 := by
    rw [List.length_eq_zero]
    exact List.ne_nil_of_mem hmem
  rw [if_neg hnz]
  exact mem_dedupFirst.mpr hmem

theorem word_of_digit {c : Char} (h : isDigitJS c = true) : isWordJS c = true := by
  have hd : c.isDigit = true := h
  simp [isWordJS, Char.isAlphanum, hd]

theorem boundaryAfter_digit {l : List Char} {k : Nat}
    (hds : ∀ c ∈ l, isDigitJS c = true) (hk : k < l.length) :
    boundaryAfter l k = false := by
  unfold boundaryAfter
  rcases hdrop : l.drop k with _ | ⟨c, t⟩
  · have hcon := congrArg List.length hdrop
    rw [List.length_drop] at hcon
    simp at hcon
    omega
  · have hc : c ∈ l := by
      have hmem : c ∈ l.drop k := by
        rw [hdrop]
        exact List.mem_cons_self _ _
      exact List.mem_of_mem_drop hmem
    simp [word_of_digit (hds c hc)]

theorem tryDigitLens_none_of_boundaries (l : List Char) :
    ∀ k, (∀ j, 4 ≤ j → j ≤ k → boundaryAfter l j = false) → tryDigitLens l k = none := by
  intro k
  induction k with
  | zero => intro _; rfl
  | succ k' ih =>
    intro hb
    unfold tryDigitLens
    by_cases h4 : 4 ≤ k' + 1
    · rw [if_pos h4, hb (k' + 1) h4 (le_refl _)]
      simp only [Bool.false_eq_true, if_false]
      exact ih fun j hj hjk => hb j hj (by omega)
    · rw [if_neg h4]

theorem matchAnyAt_none_of_long_run {ds : List Char}
    (hds : ∀ c ∈ ds, isDigitJS c = true) (hlen : 7 ≤ ds.length) :
    matchAnyAt none ds = none := by
  rw [show matchAnyAt none ds =
    tryDigitLens ds (min (ds.takeWhile isDigitJS).length 6) from rfl]
  rw [takeWhile_all hds]
  rw [show min ds.length 6 = 6 from by omega]
  exact tryDigitLens_none_of_boundaries ds 6
    (fun j hj hjk => boundaryAfter_digit hds (by omega))

theorem scanAny46Aux_digit_prev (fuel : Nat) :
    ∀ (prev : Char) (t : List Char), isDigitJS prev = true →
      (∀ c ∈ t, isDigitJS c = true) →
      scanAny46Aux fuel (some prev) t = [] := by
  induction fuel with
  | zero =>
    intro prev t _ _
    cases t <;> rfl
  | succ fuel ih =>
    intro prev t hprev ht
    cases t with
    | nil => rfl
    | cons c t' =>
      rw [show scanAny46Aux (fuel + 1) (some prev) (c :: t') =
        (match matchAnyAt (some prev) (c :: t') with
         | some m => m :: scanAny46Aux fuel m.getLast? ((c :: t').drop m.length)
         | none => scanAny46Aux fuel (some c) t') from rfl]
      have hnone : matchAnyAt (some prev) (c :: t') = none := by
        unfold matchAnyAt
        simp [word_of_digit hprev]
      rw [hnone]
      exact ih c t' (ht c (by simp)) fun x hx => ht x (by simp [hx])

theorem scanAny46_long_run {ds : List Char}
    (hds : ∀ c ∈ ds, isDigitJS c = true) (hlen : 7 ≤ ds.length) :
    scanAny46 ds = [] := by
  obtain ⟨d, t, rfl⟩ : ∃ d t, ds = d :: t := by
    cases ds with
    | nil => simp at hlen
    | cons d t => exact ⟨d, t, rfl⟩
  unfold scanAny46
  rw [List.length_cons]
  rw [show scanAny46Aux (t.length + 1) none (d :: t) =
    (match matchAnyAt none (d :: t) with
     | some m => m :: scanAny46Aux t.length m.getLast? ((d :: t).drop m.length)
     | none => scanAny46Aux t.length (some d) t) from rfl]
  rw [matchAnyAt_none_of_long_run hds hlen]
  exact scanAny46Aux_digit_prev t.length d t (hds d (by simp))
    fun c hc => hds c (by simp [hc])

/-- C3 counterexample: the text "Pincode: 1000 Pincode: 689672" contains the
substring "Pincode: 689672", yet the first element extractPincode returns is
"1000" — an earlier labelled occurrence wins, so the first-element clause of
the claim fails. -/
theorem c3_counterexample_first_element :
    (∃ u v : List Char, ("Pincode: 1000 Pincode: 689672" : String).toList =
        u ++ ("Pincode: 689672".toList ++ v)) ∧
    (extractPincode "Pincode: 1000 Pincode: 689672").head? = some "1000" :=
  ⟨⟨"Pincode: 1000 ".toList, [], by decide⟩, by decide⟩

/-- C3 (amended): for every input text containing the substring
"Pincode: 689672", extractPincode returns a non-empty sequence that contains
"689672" (not necessarily as its first element). -/
theorem c3_contains_pincode (s : String)
    (h : ∃ u v : List Char, s.toList = u ++ ("Pincode: 689672".toList ++ v)) :
    "689672" ∈ extractPincode s ∧ extractPincode s ≠ [] := by
  obtain ⟨u, v, hs⟩ := h
  cases s with
  | mk data =>
    have hdata : data = u ++ ('P' :: 'i' :: 'n' :: 'c' :: 'o' :: 'd' :: 'e' ::
        ([] ++ ([':'] ++ ([' '] ++ (['6', '8', '9', '6', '7', '2'] ++ v))))) := hs
    subst hdata
    have hk := labelled_occurrence_mem_extractPincode u [] [':'] [' ']
      ['6', '8', '9', '6', '7', '2'] v (by simp) (Or.inr (Or.inl rfl))
      (by decide) (by decide) (by decide)
    constructor
    · exact hk
    · exact List.ne_nil_of_mem hk



/-- C10: wherever the label "Pincode" with optional separator is followed by
a run of more than 6 digits, extractPincode returns the first 6 digits of
that run as a labelled candidate (the labelled pattern imposes no right
digit boundary), while the unlabelled fallback pattern, which requires word
boundaries, rejects such an over-long run entirely. -/
theorem c10_labelled_overlong_run (u s1 sep s2 ds v : List Char)
    (hs1 : ∀ c ∈ s1, isSpaceJS c = true)
    (hsep : sep = [] ∨ sep = [':'] ∨ sep = ['-'])
    (hs2 : ∀ c ∈ s2, isSpaceJS c = true)
    (hds : ∀ c ∈ ds, isDigitJS c = true)
    (hlen : 7 ≤ ds.length) :
    String.mk (ds.take 6) ∈
      extractPincode (String.mk (u ++ 'P' :: 'i' :: 'n' :: 'c' :: 'o' :: 'd' :: 'e' ::
        (s1 ++ (sep ++ (s2 ++ (ds ++ v)))))) ∧
    scanAny46 ds = [] := by
  have h1 := labelled_occurrence_mem_extractPincode u s1 sep s2 ds v hs1 hsep hs2 hds
    (by omega)
  have h2 : (ds ++ v.takeWhile isDigitJS).take 6 = ds.take 6 := by
    rw [List.take_append_eq_append_take, Nat.sub_eq_zero_of_le (by omega),
      List.take_zero, List.append_nil]
  rw [h2] at h1
  exact ⟨h1, scanAny46_long_run hds hlen⟩

/-- C10 witness: "Pincode: 1234567" extracts "123456", and the fallback
scan of the bare run "1234567" matches nothing. -/
theorem c10_labelled_overlong_run_witness :
    "123456" ∈ extractPincode "Pincode: 1234567" ∧
    scanAny46 "1234567".toList = [] := by
  have h := c10_labelled_overlong_run [] [] [':'] [' '] "1234567".toList []
    (by simp) (Or.inr (Or.inl rfl)) (by decide) (by decide) (by decide)
  have harg : String.mk (([] : List Char) ++ 'P' :: 'i' :: 'n' :: 'c' :: 'o' :: 'd' :: 'e' ::
      (([] : List Char) ++ ([':'] ++ ([' '] ++ ("1234567".toList ++ ([] : List Char)))))) =
      "Pincode: 1234567" := by decide
  have hcap : String.mk ("1234567".toList.take 6) = "123456" := by decide
  rw [harg, hcap] at h
  exact h

/-- C3 witness: a concrete address text containing the substring. -/
theorem c3_contains_pincode_witness :
    "689672" ∈ extractPincode "Customer address Pincode: 689672 Kerala" ∧
    extractPincode "Customer address Pincode: 689672 Kerala" ≠ [] :=
  c3_contains_pincode "Customer address Pincode: 689672 Kerala"
    ⟨"Customer address ".toList, " Kerala".toList, by decide⟩

end Chembys
